import Mathlib

/-!
Shallow embedding of the tile lifecycle / render coalescing core of
`src/src/basic_renderer/index.ts` (classes `BasicRenderer` and `BasicSourceCache`).

Coordinates and sizes are modelled as integers; the JavaScript values
`Infinity`, `-Infinity` and `NaN`, which genuinely arise in the canonicalization
code path (`reduce(Math.min, Infinity)` over an empty list), are modelled by the
`JNum` type.  Asynchronous effects (tile fetches, aborts, unloads, the painter's
per-block render call, `drawImage` / `clearRect` on consumer contexts, consumer
settlement callbacks) are recorded in explicit event logs on the `Sys` state.
-/

namespace PbfBasicRender

/-- JavaScript number model restricted to the values the embedded code paths can
produce: integers, the two infinities, and NaN. -/
inductive JNum where
  | fin (n : Int)
  | posInf
  | negInf
  | nan
deriving DecidableEq

/-- JavaScript `<` on numbers: any comparison involving NaN is false. -/
def JNum.lt : JNum → JNum → Bool
  | .nan, _ => false
  | _, .nan => false
  | .fin a, .fin b => a < b
  | .fin _, .posInf => true
  | .negInf, .fin _ => true
  | .negInf, .posInf => true
  | _, _ => false

def JNum.neg : JNum → JNum
  | .fin a => .fin (-a)
  | .posInf => .negInf
  | .negInf => .posInf
  | .nan => .nan

/-- JavaScript `+` on numbers; `Infinity + (-Infinity)` is NaN. -/
def JNum.add : JNum → JNum → JNum
  | .nan, _ => .nan
  | _, .nan => .nan
  | .fin a, .fin b => .fin (a + b)
  | .posInf, .negInf => .nan
  | .negInf, .posInf => .nan
  | .posInf, _ => .posInf
  | _, .posInf => .posInf
  | _, _ => .negInf

def JNum.sub (a b : JNum) : JNum := a.add b.neg

/-- JavaScript `Math.min` on two numbers (NaN-propagating). -/
def JNum.jmin : JNum → JNum → JNum
  | .nan, _ => .nan
  | _, .nan => .nan
  | a, b => if JNum.lt a b then a else b

/-- JavaScript `Math.max` on two numbers (NaN-propagating). -/
def JNum.jmax : JNum → JNum → JNum
  | .nan, _ => .nan
  | _, .nan => .nan
  | a, b => if JNum.lt b a then a else b

/-- JavaScript `x | 0`: truncation to a 32-bit integer; `Infinity | 0` and
`NaN | 0` are 0.  (Our `fin` values are already integral, so only the wrap
applies.) -/
def JNum.or0 : JNum → Int
  | .fin n => (n + 2 ^ 31) % 2 ^ 32 - 2 ^ 31
  | _ => 0

/-- JavaScript string conversion as used in template literals, for the values
`JNum` can hold. -/
def JNum.toStr : JNum → String
  | .fin n => toString n
  | .posInf => "Infinity"
  | .negInf => "-Infinity"
  | .nan => "NaN"

/-- One entry of the `tilesSpec` array passed to `renderTiles`
(`{source, z, x, y, left, top, size}`). -/
structure TileSpec where
  source : String
  z : Int
  x : Int
  y : Int
  left : Int
  top : Int
  size : Int
deriving DecidableEq

/-- The `drawSpec` argument of `renderTiles`
(`{srcLeft, srcTop, width, height, destLeft, destTop}`). -/
structure DrawSpec where
  srcLeft : Int
  srcTop : Int
  width : Int
  height : Int
  destLeft : Int
  destTop : Int
deriving DecidableEq

/-- A tile spec after `_canonicalizeSpec`: `left`/`top` have had the minimum
left/top subtracted, which is a `JNum` because the minimum of an empty list is
`Infinity`. -/
structure CanonTileSpec where
  source : String
  z : Int
  x : Int
  y : Int
  top : JNum
  left : JNum
  size : Int
deriving DecidableEq

/-- A draw spec after `_canonicalizeSpec`: the source coordinates have had the
minimum subtracted (so they are `-Infinity` for an empty tile list); the
destination coordinates and dimensions are untouched. -/
structure CanonDrawSpec where
  srcLeft : JNum
  srcTop : JNum
  width : Int
  height : Int
  destLeft : Int
  destTop : Int
deriving DecidableEq

/-- `BasicRenderer._canonicalizeSpec` (index.ts:291-322): subtract the minimum
left/top over all tile specs from every tile placement and from the draw spec's
source coordinates. -/
def canonicalizeSpec (tilesSpec : List TileSpec) (drawSpec : DrawSpec) :
    List CanonTileSpec × CanonDrawSpec :=
  let minLeft := (tilesSpec.map (fun s => JNum.fin s.left)).foldl JNum.jmin .posInf
  let minTop := (tilesSpec.map (fun s => JNum.fin s.top)).foldl JNum.jmin .posInf
  (tilesSpec.map (fun s =>
      { source := s.source, z := s.z, x := s.x, y := s.y,
        top := (JNum.fin s.top).sub minTop,
        left := (JNum.fin s.left).sub minLeft,
        size := s.size }),
   { srcLeft := (JNum.fin drawSpec.srcLeft).sub minLeft,
     srcTop := (JNum.fin drawSpec.srcTop).sub minTop,
     width := drawSpec.width, height := drawSpec.height,
     destLeft := drawSpec.destLeft, destTop := drawSpec.destTop })

/-- The template literal of `_tileSpecToString`:
`` `${s.source} ${s.z} ${s.x} ${s.y} ${s.left} ${s.top} ${s.size}` ``. -/
def tileSpecStr (s : CanonTileSpec) : String :=
  s.source ++ " " ++ toString s.z ++ " " ++ toString s.x ++ " " ++ toString s.y
    ++ " " ++ s.left.toStr ++ " " ++ s.top.toStr ++ " " ++ toString s.size

/-- `BasicRenderer._tileSpecToString` (index.ts:324-332): per-spec strings,
sorted, joined with spaces.  This is the `tileSetID` fingerprint. -/
def tileSpecToString (tilesSpec : List CanonTileSpec) : String :=
  String.intercalate " " (List.insertionSort (· ≤ ·) (tilesSpec.map tileSpecStr))

/-! ### Association-list primitives

JavaScript plain-object / `Map` key-value stores (`_tilesInUse`,
`_pendingRenders`) are modelled as association lists whose keys stay unique:
assignment replaces the existing binding or appends a new one, `delete`
removes the binding. -/

def lookupA {α β : Type} [DecidableEq α] (k : α) : List (α × β) → Option β
  | [] => none
  | (k', v) :: rest => if k' = k then some v else lookupA k rest

def insertA {α β : Type} [DecidableEq α] (k : α) (v : β) : List (α × β) → List (α × β)
  | [] => [(k, v)]
  | (k', v') :: rest => if k' = k then (k, v) :: rest else (k', v') :: insertA k v rest

def eraseA {α β : Type} [DecidableEq α] (k : α) : List (α × β) → List (α × β)
  | [] => []
  | (k', v') :: rest => if k' = k then rest else (k', v') :: eraseA k rest

/-! ### Tile and source-cache state (`BasicSourceCache`, index.ts:553-734) -/

/-- `TILE_CACHE_SIZE` (index.ts:553): default LRU capacity. -/
def TILE_CACHE_SIZE : Nat := 20

/-- The coordinate key of a tile within one source's cache: `acquireTile` is
called with `new OverscaledTileID(s.z, 0, s.z, s.x, s.y)`, whose key is
determined by `(z, x, y)`. -/
structure TileKey where
  z : Int
  x : Int
  y : Int
deriving DecidableEq

/-- The mutable state of one `Tile` object.  `src` is the `tile.cache` back
pointer (identified by source name); `hasLoaded` stands for
`tile.loadedPromise` being present; `hasData` for `tile.hasData()`; `isDud`
for `tile._isDud`.  `left`, `top`, `tsize` are the placement fields written by
the render continuation; they start out `undefined` (modelled as NaN resp. the
constructor's size argument for `tsize`). -/
structure TileRec where
  key : TileKey
  src : String
  uses : Nat
  hasData : Bool
  isDud : Bool
  hasLoaded : Bool
  left : JNum
  top : JNum
  tsize : Int
deriving DecidableEq

/-- Per-source cache state: the in-use map `_tilesInUse` and the LRU
`_tileCache` (oldest = least-recently-released first), both mapping tile keys
to tile object ids. -/
structure SrcCache where
  tilesInUse : List (TileKey × Nat)
  tileCache : List (TileKey × Nat)
deriving DecidableEq

/-- One consumer of a pending render (`{ctx, drawSpec, tilesSpec, next}`,
index.ts:367).  Object identity of the consumer and of its `ctx` canvas are
modelled by numeric ids; the `next` callback is modelled by the `settleLog`
event log. -/
structure Consumer where
  cid : Nat
  ctx : Nat
  drawSpec : CanonDrawSpec
deriving DecidableEq

/-- One entry of `_pendingRenders` (index.ts:384-392). -/
structure Pending where
  tileSetID : String
  renderId : Nat
  tiles : List Nat
  consumers : List Consumer
deriving DecidableEq

/-- A `ctx.clearRect(left, top, width, height)` event. -/
structure ClearEv where
  ctx : Nat
  left : Int
  top : Int
  width : Int
  height : Int
deriving DecidableEq

/-- A `ctx.drawImage(canvas, srcLeft, srcTop, width, height, destLeft, destTop,
width, height)` event (index.ts:473). -/
structure CopyEv where
  ctx : Nat
  srcLeft : Int
  srcTop : Int
  width : Int
  height : Int
  destLeft : JNum
  destTop : JNum
deriving DecidableEq

/-- The value passed to a consumer's `next` callback: `null` on success, the
`"${bad} of ${total} tiles not available"` error, `'canceled'`, or
`'fully-canceled'`. -/
inductive Outcome where
  | ok
  | err (bad total : Nat)
  | canceled
  | fullyCanceled
deriving DecidableEq

/-- The whole mutable state: the tile object heap (tiles are shared mutable
JS objects, addressed by id), all per-source caches, the renderer's pending
render registry, and the event logs for every externally observable effect. -/
structure Sys where
  heap : List (Nat × TileRec)
  nextTileId : Nat
  caches : List (String × SrcCache)
  fetchLog : List Nat
  abortLog : List Nat
  unloadLog : List Nat
  pendingRenders : List (String × Pending)
  nextRenderId : Nat
  nextConsumerId : Nat
  clearLog : List ClearEv
  blockRenderLog : List (Int × Int)
  copyLog : List CopyEv
  settleLog : List (Nat × Outcome)
deriving DecidableEq

def getCache (s : Sys) (src : String) : SrcCache :=
  (lookupA src s.caches).getD ⟨[], []⟩

def setCache (s : Sys) (src : String) (c : SrcCache) : Sys :=
  { s with caches := insertA src c s.caches }

def heapGet (s : Sys) (tid : Nat) : Option TileRec := lookupA tid s.heap

def heapSet (s : Sys) (tid : Nat) (t : TileRec) : Sys :=
  { s with heap := insertA tid t s.heap }

/-- In-place mutation of the tile object `tid` (JS tiles are shared mutable
objects): every heap binding for that id is updated, others untouched. -/
def heapModify (s : Sys) (tid : Nat) (f : TileRec → TileRec) : Sys :=
  { s with heap := s.heap.map (fun p => if p.1 = tid then (p.1, f p.2) else p) }

/-- Modelled from the spec: the LRU cache class itself (`../source/tile_cache`,
constructed at index.ts:592 with capacity `TILE_CACHE_SIZE` and the eviction
callback `t => this._source.unloadTile(t)`) is not among this repository's
sources.  Per the spec, insertion appends the newly released tile and, when
the cache exceeds its capacity, evicts the least-recently-released entry,
invoking the unload callback on it. -/
def tileCacheAdd (s : Sys) (src : String) (k : TileKey) (tid : Nat) : Sys :=
  let c := getCache s src
  let l := c.tileCache ++ [(k, tid)]
  if TILE_CACHE_SIZE < l.length then
    match l with
    | [] => setCache s src { c with tileCache := [] }
    | evicted :: rest =>
        { setCache s src { c with tileCache := rest } with
            unloadLog := s.unloadLog ++ [evicted.2] }
  else
    setCache s src { c with tileCache := l }

/-- `BasicSourceCache.acquireTile` (index.ts:605-639).  Constructs a fresh
`Tile` (a new `Tile` has `uses = 0`, no data, no `loadedPromise`), increments
its usage counter, stores it under the coordinate key in `_tilesInUse`
(overwriting any previous binding for that key), sets the `tile.cache` back
pointer, and — the fresh tile having no `loadedPromise` — issues a load
request, recorded in `fetchLog`.  The asynchronous settlement of that load is
modelled separately by `tileLoadSettle`. -/
def acquireTile (s : Sys) (src : String) (k : TileKey) (size : Int) : Sys × Nat :=
  let tid := s.nextTileId
  let tile : TileRec :=
    { key := k, src := src, uses := 1, hasData := false, isDud := false,
      hasLoaded := false, left := .nan, top := .nan, tsize := size }
  let c := getCache s src
  let s := setCache s src { c with tilesInUse := insertA k tid c.tilesInUse }
  let s := heapSet s tid tile
  let s := { s with nextTileId := s.nextTileId + 1 }
  if tile.hasLoaded then
    (s, tid)
  else
    let s := heapModify s tid (fun t => { t with hasLoaded := true })
    ({ s with fetchLog := s.fetchLog ++ [tid] }, tid)

inductive LoadResult where
  | success
  | failure
  | timeout
deriving DecidableEq

/-- The asynchronous settlement of a tile's load (index.ts:619-636): on
success the fetch backend has mutated the tile in place so it now has data; on
fetch error the tile is marked a dud (`tile._isDud = true`); on timeout the
in-flight fetch is aborted and `tile.loadedPromise` cleared.  The usage
counter is never touched here. -/
def tileLoadSettle (s : Sys) (tid : Nat) (r : LoadResult) : Sys :=
  match r with
  | .success => heapModify s tid (fun t => { t with hasData := true })
  | .failure => heapModify s tid (fun t => { t with isDud := true })
  | .timeout =>
      { heapModify s tid (fun t => { t with hasLoaded := false }) with
          abortLog := s.abortLog ++ [tid] }

/-- `BasicSourceCache.releaseTile` (index.ts:655-669).  The failing
`assert(tile.uses > 0)` (and a release of a tile object that does not exist)
is modelled as `Except.error`.  When the decremented count reaches 0 the key
is deleted from `_tilesInUse`; a tile with data or a dud goes into the LRU
cache, otherwise the fetch is aborted and the tile unloaded immediately. -/
def releaseTileE (s : Sys) (tid : Nat) : Except Unit Sys :=
  match heapGet s tid with
  | none => .error ()
  | some t =>
    if t.uses = 0 then .error ()
    else
      let t' : TileRec := { t with uses := t.uses - 1 }
      let s := heapSet s tid t'
      if 0 < t'.uses then .ok s
      else
        let c := getCache s t.src
        let s := setCache s t.src { c with tilesInUse := eraseA t.key c.tilesInUse }
        if t'.hasData || t'.isDud then
          .ok (tileCacheAdd s t.src t.key tid)
        else
          .ok { s with abortLog := s.abortLog ++ [tid], unloadLog := s.unloadLog ++ [tid] }

/-! ### The render coalescer (`BasicRenderer`, index.ts:266-493) -/

/-- `BasicRenderer._finishRender` (index.ts:276-289): if the pending state for
this `tileSetID` is still the one with this `renderId`, settle every consumer
with `err` (in attachment order) and delete the registry entry; otherwise do
nothing. -/
def finishRender (s : Sys) (tileSetID : String) (renderId : Nat) (out : Outcome) : Sys :=
  match lookupA tileSetID s.pendingRenders with
  | none => s
  | some st =>
    if st.renderId ≠ renderId then s
    else
      { s with
          settleLog := s.settleLog ++ st.consumers.map (fun c => (c.cid, out)),
          pendingRenders := eraseA tileSetID s.pendingRenders }

/-- The token returned by `renderTiles` (index.ts:374-379, 487-492). -/
structure RenderHandle where
  renderId : Nat
  cid : Nat
  tiles : List Nat
  tileSetID : String
deriving DecidableEq

/-- The `tilesSpec.map(s => ...acquireTile(...))` of index.ts:387-390,
threading the state left to right and collecting the acquired tile ids. -/
def acquireAll (s : Sys) : List CanonTileSpec → Sys × List Nat
  | [] => (s, [])
  | sp :: rest =>
    let r1 := acquireTile s sp.source ⟨sp.z, sp.x, sp.y⟩ sp.size
    let r2 := acquireAll r1.1 rest
    (r2.1, r1.2 :: r2.2)

/-- `state.tiles.forEach(t => t.uses++)` (index.ts:372). -/
def bumpUses (s : Sys) : List Nat → Sys
  | [] => s
  | tid :: rest => bumpUses (heapModify s tid (fun t => { t with uses := t.uses + 1 })) rest

/-- `BasicRenderer.renderTiles`, synchronous part (index.ts:351-393, 487-492):
canonicalize, fingerprint, then either attach to an existing pending render
(bumping each of its tiles' usage counters) or create a new pending state,
acquiring one tile per spec.  The asynchronous `Promise.all(...).then(...)`
continuation is modelled separately by `renderContinuation`.  (Consumer
objects are identified by a fresh id from `nextConsumerId`, standing for JS
object identity.) -/
def renderTiles (s : Sys) (ctx : Nat) (drawSpec : DrawSpec) (tilesSpec : List TileSpec) :
    Sys × RenderHandle :=
  let canon := canonicalizeSpec tilesSpec drawSpec
  let tileSetID := tileSpecToString canon.1
  let cid := s.nextConsumerId
  let consumer : Consumer := { cid := cid, ctx := ctx, drawSpec := canon.2 }
  let s := { s with nextConsumerId := cid + 1 }
  match lookupA tileSetID s.pendingRenders with
  | some st =>
    let s := bumpUses s st.tiles
    let st' : Pending := { st with consumers := st.consumers ++ [consumer] }
    let s := { s with pendingRenders := insertA tileSetID st' s.pendingRenders }
    (s, { renderId := st.renderId, cid := cid, tiles := st.tiles, tileSetID := tileSetID })
  | none =>
    let renderId := s.nextRenderId + 1
    let s := { s with nextRenderId := renderId }
    let acq := acquireAll s canon.1
    let st : Pending :=
      { tileSetID := tileSetID, renderId := renderId, tiles := acq.2, consumers := [consumer] }
    let s := { acq.1 with pendingRenders := insertA tileSetID st acq.1.pendingRenders }
    (s, { renderId := renderId, cid := cid, tiles := acq.2, tileSetID := tileSetID })

/-- `OFFSCREEN_CANV_SIZE` (index.ts:13): the fixed block / working-surface
size. -/
def OFFSCREEN_CANV_SIZE : Int := 1024

/-- The values taken by `xx` in
`for (let xx = a; xx < b; xx += OFFSCREEN_CANV_SIZE)` for integer bounds. -/
def blockStarts (a b : Int) : List Int :=
  if b ≤ a then []
  else
    (List.range ((b - a - 1).toNat / OFFSCREEN_CANV_SIZE.toNat + 1)).map
      (fun i => a + OFFSCREEN_CANV_SIZE * (i : Int))

/-- Loop bounds as `JNum`s.  With `Infinity` as the lower bound the JS loop
body never runs; `-Infinity` / NaN bounds are unreachable (every consumer of a
nonempty tile set has finite canonical source coordinates, and the loop is
only reached when a pending state has at least one attached consumer). -/
def jBlockStarts : JNum → JNum → List Int
  | .fin a, .fin b => blockStarts a b
  | _, _ => []

/-- The `state.consumers.filter(...)` intersection test of index.ts:444-448:
half-open overlap of the consumer's source rectangle with the
`OFFSCREEN_CANV_SIZE`-sized block at `(xx, yy)` (all four comparisons
strict). -/
def overlapsBlock (c : Consumer) (xx yy : Int) : Bool :=
  JNum.lt (.fin xx) (c.drawSpec.srcLeft.add (.fin c.drawSpec.width)) &&
  JNum.lt c.drawSpec.srcLeft (.fin (xx + OFFSCREEN_CANV_SIZE)) &&
  JNum.lt (.fin yy) (c.drawSpec.srcTop.add (.fin c.drawSpec.height)) &&
  JNum.lt c.drawSpec.srcTop (.fin (yy + OFFSCREEN_CANV_SIZE))

/-- The per-consumer copy-out of index.ts:464-474: clip the consumer's source
rectangle to the block (with `| 0` truncation on the source-side coordinates)
and copy to the correspondingly offset destination position. -/
def copyEvFor (c : Consumer) (xx yy : Int) : CopyEv :=
  let srcLeft := ((JNum.fin 0).jmax (c.drawSpec.srcLeft.sub (.fin xx))).or0
  let srcRight := ((JNum.fin OFFSCREEN_CANV_SIZE).jmin
      ((c.drawSpec.srcLeft.add (.fin c.drawSpec.width)).sub (.fin xx))).or0
  let srcTop := ((JNum.fin 0).jmax (c.drawSpec.srcTop.sub (.fin yy))).or0
  let srcBottom := ((JNum.fin OFFSCREEN_CANV_SIZE).jmin
      ((c.drawSpec.srcTop.add (.fin c.drawSpec.height)).sub (.fin yy))).or0
  let destLeft := (JNum.fin c.drawSpec.destLeft).add
      (if JNum.lt c.drawSpec.srcLeft (.fin xx) then (JNum.fin xx).sub c.drawSpec.srcLeft
       else .fin 0)
  let destTop := (JNum.fin c.drawSpec.destTop).add
      (if JNum.lt c.drawSpec.srcTop (.fin yy) then (JNum.fin yy).sub c.drawSpec.srcTop
       else .fin 0)
  { ctx := c.ctx, srcLeft := srcLeft, srcTop := srcTop,
    width := srcRight - srcLeft, height := srcBottom - srcTop,
    destLeft := destLeft, destTop := destTop }

/-- The body of one `(xx, yy)` iteration of the block loop (index.ts:441-474):
find the consumers overlapping the block; if there are none, skip the block
entirely (no painter call, no copy-out); otherwise invoke the painter once for
the block and copy the clipped sub-rectangle out to every relevant consumer.
(The per-tile `posMatrix` computation and `style.update` feed only the
painter, which is an external collaborator; the painter invocation itself is
the recorded event.) -/
def processBlock (s : Sys) (consumers : List Consumer) (xx yy : Int) : Sys :=
  let relevant := consumers.filter (fun c => overlapsBlock c xx yy)
  if relevant.length = 0 then s
  else
    let s := { s with blockRenderLog := s.blockRenderLog ++ [(xx, yy)] }
    { s with copyLog := s.copyLog ++ relevant.map (fun c => copyEvFor c xx yy) }

/-- index.ts:417-429: record each usable tile's placement (`t.tileSize`,
`t.left`, `t.top`) on the tile object; the `currentlyRenderingTiles` lists
this also builds exist only to feed the painter. -/
def recordPlacements (s : Sys) (tilesSpec : List CanonTileSpec)
    (tiles badTileIdxs : List Nat) : Sys :=
  (List.range tilesSpec.length).foldl (fun s ii =>
    if badTileIdxs.contains ii then s
    else
      match tilesSpec.get? ii, tiles.get? ii with
      | some sp, some tid =>
          heapModify s tid (fun t =>
            { t with tsize := sp.size, left := sp.left, top := sp.top })
      | _, _ => s) s

/-- index.ts:432-476: compute the union bounding box of all consumers' source
rectangles and run the nested block loop — `xx` over block columns in the
outer loop, `yy` over block rows in the inner loop. -/
def compositeBlocks (s : Sys) (consumers : List Consumer) : Sys :=
  let xSrcMin := (consumers.map (fun c => c.drawSpec.srcLeft)).foldl JNum.jmin .posInf
  let ySrcMin := (consumers.map (fun c => c.drawSpec.srcTop)).foldl JNum.jmin .posInf
  let xSrcMax := (consumers.map (fun c =>
      c.drawSpec.srcLeft.add (.fin c.drawSpec.width))).foldl JNum.jmax .negInf
  let ySrcMax := (consumers.map (fun c =>
      c.drawSpec.srcTop.add (.fin c.drawSpec.height))).foldl JNum.jmax .negInf
  (jBlockStarts xSrcMin xSrcMax).foldl (fun s xx =>
    (jBlockStarts ySrcMin ySrcMax).foldl (fun s yy =>
      processBlock s consumers xx yy) s) s

/-- The column-major sequence of block origins the nested loop visits:
all rows of the first column, then all rows of the next column, and so on. -/
def blockGrid (consumers : List Consumer) : List (Int × Int) :=
  let xSrcMin := (consumers.map (fun c => c.drawSpec.srcLeft)).foldl JNum.jmin .posInf
  let ySrcMin := (consumers.map (fun c => c.drawSpec.srcTop)).foldl JNum.jmin .posInf
  let xSrcMax := (consumers.map (fun c =>
      c.drawSpec.srcLeft.add (.fin c.drawSpec.width))).foldl JNum.jmax .negInf
  let ySrcMax := (consumers.map (fun c =>
      c.drawSpec.srcTop.add (.fin c.drawSpec.height))).foldl JNum.jmax .negInf
  (jBlockStarts xSrcMin xSrcMax).flatMap (fun xx =>
    (jBlockStarts ySrcMin ySrcMax).map (fun yy => (xx, yy)))

/-- The blocks of a grid that have at least one overlapping consumer; blocks
for which this filter is empty produce no painter call. -/
def renderedBlocks (cs : List Consumer) (ps : List (Int × Int)) : List (Int × Int) :=
  ps.filter (fun p => !((cs.filter (fun c => overlapsBlock c p.1 p.2)).length = 0 : Bool))

/-- All copy-out events produced by processing the given blocks in order. -/
def blockCopies (cs : List Consumer) (ps : List (Int × Int)) : List CopyEv :=
  ps.flatMap (fun p => (cs.filter (fun c => overlapsBlock c p.1 p.2)).map
    (fun c => copyEvFor c p.1 p.2))

/-- The `.then(() => ...)` continuation of `renderTiles`
(index.ts:400-485), which runs once all of the pending state's tile loads
have settled.  `tileSetID`, `renderId`, the canonicalized `tilesSpec` and
`drawSpec` and the `badTileIdxs` accumulator are the closure's captured
variables. -/
def renderContinuation (s : Sys) (tileSetID : String) (renderId : Nat)
    (tilesSpec : List CanonTileSpec) (drawSpec : CanonDrawSpec)
    (badTileIdxs : List Nat) : Sys :=
  match lookupA tileSetID s.pendingRenders with
  | none => s
  | some st =>
    if st.renderId ≠ renderId then s
    else
      let out : Outcome :=
        if badTileIdxs.length ≠ 0 then .err badTileIdxs.length tilesSpec.length else .ok
      if (tilesSpec.length : Int) - (badTileIdxs.length : Int) = 0 then
        -- index.ts:408-414: no tiles requested or available; note that the
        -- cleared rectangle comes from the closure's `drawSpec` — the one the
        -- creating submission passed — for every consumer's context.
        let s := { s with clearLog := s.clearLog ++ st.consumers.map (fun c =>
            { ctx := c.ctx, left := drawSpec.destLeft, top := drawSpec.destTop,
              width := drawSpec.width, height := drawSpec.height }) }
        finishRender s tileSetID renderId out
      else
        let s := recordPlacements s tilesSpec st.tiles badTileIdxs
        let s := compositeBlocks s st.consumers
        -- index.ts:478-481: settle every consumer in order, drop the entry.
        { s with
            settleLog := s.settleLog ++ st.consumers.map (fun c => (c.cid, out)),
            pendingRenders := eraseA tileSetID s.pendingRenders }

/-- `state.consumers.indexOf(c)` / `splice(idx, 1)` (index.ts:344-345):
remove the first consumer with this identity, if present. -/
def removeFirstCid (cid : Nat) : List Consumer → List Consumer
  | [] => []
  | c :: rest => if c.cid = cid then rest else c :: removeFirstCid cid rest

/-- `BasicRenderer.releaseRender` (index.ts:334-349).  Always releases every
tile of the handle (an assertion failure inside `releaseTile` propagates as
`Except.error`); then, only if the registered pending state still carries this
handle's `renderId`, signals the handle's consumer with `'canceled'`, removes
it from the consumer list, and — if no consumers remain — finishes the render
as `'fully-canceled'`. -/
def releaseRenderE (s : Sys) (h : RenderHandle) : Except Unit Sys := do
  let stOpt := lookupA h.tileSetID s.pendingRenders
  let s ← h.tiles.foldlM (fun s tid => releaseTileE s tid) s
  match stOpt with
  | none => pure s
  | some st =>
    if st.renderId ≠ h.renderId then pure s
    else
      let s := { s with settleLog := s.settleLog ++ [(h.cid, Outcome.canceled)] }
      let consumers' := removeFirstCid h.cid st.consumers
      let st' : Pending := { st with consumers := consumers' }
      let s := { s with pendingRenders := insertA h.tileSetID st' s.pendingRenders }
      if consumers'.length = 0 then
        pure (finishRender s h.tileSetID h.renderId .fullyCanceled)
      else
        pure s

/-! ### Concrete scenario states used by the per-claim theorems -/

/-- A freshly constructed renderer with one (empty) source cache universe:
no tiles, no pending renders, no events. -/
def initSys : Sys :=
  { heap := [], nextTileId := 0, caches := [], fetchLog := [], abortLog := [],
    unloadLog := [], pendingRenders := [], nextRenderId := 0, nextConsumerId := 0,
    clearLog := [], blockRenderLog := [], copyLog := [], settleLog := [] }

def c1key : TileKey := ⟨0, 0, 0⟩

def c1r1 : Sys × Nat := acquireTile initSys "osm" c1key 256

def c1r2 : Sys × Nat := acquireTile c1r1.1 "osm" c1key 256

def c2r1 : Sys × Nat := acquireTile initSys "osm" ⟨1, 0, 1⟩ 512

def c2r2 : Sys × Nat := acquireTile c2r1.1 "osm" ⟨1, 0, 1⟩ 512

def w3specA : TileSpec := ⟨"osm", 2, 1, 1, 0, 0, 256⟩

def w3specB : TileSpec := ⟨"osm", 2, 2, 1, 256, 0, 256⟩

/-- The same two tile specs, listed in the other order and uniformly
translated by (+100, +50). -/
def w3L2 : List TileSpec := [⟨"osm", 2, 2, 1, 356, 50, 256⟩, ⟨"osm", 2, 1, 1, 100, 50, 256⟩]

def w3d1 : DrawSpec := ⟨0, 0, 512, 256, 0, 0⟩

def w3d2 : DrawSpec := ⟨100, 50, 512, 256, 20, 30⟩

def w3r1 : Sys × RenderHandle := renderTiles initSys 1 w3d1 [w3specA, w3specB]

def w3r2 : Sys × RenderHandle := renderTiles w3r1.1 2 w3d2 w3L2

def c4spec : TileSpec := ⟨"osm", 1, 0, 0, 0, 0, 256⟩

def c4d1 : DrawSpec := ⟨0, 0, 100, 100, 10, 10⟩

/-- Same canonical tile set as `c4d1`'s submission but a different destination
rectangle, so the two consumers of the shared pending render disagree about
where their output goes. -/
def c4d2 : DrawSpec := ⟨0, 0, 100, 100, 99, 77⟩

def c4r1 : Sys × RenderHandle := renderTiles initSys 1 c4d1 [c4spec]

def c4r2 : Sys × RenderHandle := renderTiles c4r1.1 2 c4d2 [c4spec]

def c4canon : List CanonTileSpec × CanonDrawSpec := canonicalizeSpec [c4spec] c4d1

/-- The continuation runs with the single tile failed (`badTileIdxs = [0]`). -/
def c4end : Sys :=
  renderContinuation c4r2.1 c4r1.2.tileSetID c4r1.2.renderId c4canon.1 c4canon.2 [0]

def c4st : Pending := (lookupA c4r1.2.tileSetID c4r2.1.pendingRenders).getD ⟨"", 0, [], []⟩

def w6t : TileRec :=
  { key := ⟨3, 1, 2⟩, src := "osm", uses := 2, hasData := true, isDud := false,
    hasLoaded := true, left := .nan, top := .nan, tsize := 256 }

def w6s : Sys :=
  { initSys with
      heap := [(5, w6t)]
      caches := [("osm", ⟨[(⟨3, 1, 2⟩, 5)], []⟩)] }

def w7t : TileRec :=
  { key := ⟨4, 0, 0⟩, src := "osm", uses := 1, hasData := false, isDud := false,
    hasLoaded := true, left := .nan, top := .nan, tsize := 256 }

def w7s : Sys :=
  { initSys with
      heap := [(0, w7t)]
      caches := [("osm", ⟨[(⟨4, 0, 0⟩, 0)], []⟩)] }

def w7h : RenderHandle := { renderId := 5, cid := 9, tiles := [0], tileSetID := "zzz" }

def w7s1 : Sys :=
  ((w7h.tiles.foldlM (fun s tid => releaseTileE s tid) w7s).toOption).getD initSys

/-- One consumer whose source rectangle spans a 2 x 2 grid of blocks. -/
def c8draw : DrawSpec := ⟨0, 0, 2048, 2048, 0, 0⟩

def c8spec : TileSpec := ⟨"osm", 1, 0, 0, 0, 0, 256⟩

def c8r : Sys × RenderHandle := renderTiles initSys 1 c8draw [c8spec]

def c8canon : List CanonTileSpec × CanonDrawSpec := canonicalizeSpec [c8spec] c8draw

def c8end : Sys :=
  renderContinuation c8r.1 c8r.2.tileSetID c8r.2.renderId c8canon.1 c8canon.2 []

def c8st : Pending := (lookupA c8r.2.tileSetID c8r.1.pendingRenders).getD ⟨"", 0, [], []⟩

/-- A tile with one user and loaded data, about to be released into a full
LRU cache. -/
def w9t : TileRec :=
  { key := ⟨7, 7, 7⟩, src := "osm", uses := 1, hasData := true, isDud := false,
    hasLoaded := true, left := .nan, top := .nan, tsize := 256 }

/-- Twenty distinct tiles already sitting unused in the LRU cache (oldest,
i.e. least recently released, first). -/
def w9cacheList : List (TileKey × Nat) :=
  (List.range TILE_CACHE_SIZE).map (fun i => ((⟨6, Int.ofNat i, 0⟩ : TileKey), 100 + i))

def w9s : Sys :=
  { initSys with
      heap := [(55, w9t)]
      caches := [("osm", ⟨[(⟨7, 7, 7⟩, 55)], w9cacheList⟩)] }

def w10d : DrawSpec := ⟨5, 6, 30, 40, 7, 8⟩

def w10r : Sys × RenderHandle := renderTiles initSys 3 w10d []

def w10s2 : Sys :=
  renderContinuation w10r.1 w10r.2.tileSetID w10r.2.renderId
    (canonicalizeSpec [] w10d).1 (canonicalizeSpec [] w10d).2 []

end PbfBasicRender

namespace PbfBasicRender

/-! ### Helper lemmas -/

instance : IsAntisymm String (· ≤ ·) := ⟨fun _ _ h1 h2 => le_antisymm h1 h2⟩

/-- The fingerprint is order-independent: `_tileSpecToString` sorts the
per-spec strings before joining them. -/
theorem tileSpecToString_perm {l1 l2 : List CanonTileSpec} (h : List.Perm l1 l2) :
    tileSpecToString l1 = tileSpecToString l2 := by
  unfold tileSpecToString
  have hp : List.Perm (l1.map tileSpecStr) (l2.map tileSpecStr) := h.map tileSpecStr
  have := List.eq_of_perm_of_sorted
    (((List.perm_insertionSort _ (l1.map tileSpecStr)).trans hp).trans
      (List.perm_insertionSort _ (l2.map tileSpecStr)).symm)
    (List.sorted_insertionSort (· ≤ ·) (l1.map tileSpecStr))
    (List.sorted_insertionSort (· ≤ ·) (l2.map tileSpecStr))
  rw [this]

theorem lookupA_insertA_self {α β : Type} [DecidableEq α] (k : α) (v : β)
    (l : List (α × β)) : lookupA k (insertA k v l) = some v := by
  induction l with
  | nil => simp [insertA, lookupA]
  | cons p rest ih =>
    by_cases h : p.1 = k
    · simp [insertA, h, lookupA]
    · simpa [insertA, h, lookupA] using ih

theorem lookupA_eq_none_of_not_mem {α β : Type} [DecidableEq α] (k : α)
    (l : List (α × β)) (h : k ∉ l.map Prod.fst) : lookupA k l = none := by
  induction l with
  | nil => rfl
  | cons p rest ih =>
    obtain ⟨k1, v1⟩ := p
    simp only [List.map_cons, List.mem_cons] at h
    push_neg at h
    rw [lookupA, if_neg (Ne.symm h.1)]
    exact ih h.2

theorem lookupA_eraseA_self_of_nodup {α β : Type} [DecidableEq α] (k : α)
    (l : List (α × β)) (h : (l.map Prod.fst).Nodup) :
    lookupA k (eraseA k l) = none := by
  induction l with
  | nil => rfl
  | cons p rest ih =>
    obtain ⟨k1, v1⟩ := p
    simp only [List.map_cons, List.nodup_cons] at h
    by_cases hk : k1 = k
    · subst hk
      rw [eraseA, if_pos rfl]
      exact lookupA_eq_none_of_not_mem _ _ h.1
    · rw [eraseA, if_neg hk, lookupA, if_neg hk]
      exact ih h.2

theorem lookupA_map_update {α β : Type} [DecidableEq α] (k a : α) (f : β → β)
    (l : List (α × β)) :
    lookupA k (l.map (fun p => if p.1 = a then (p.1, f p.2) else p)) =
      if k = a then (lookupA k l).map f else lookupA k l := by
  induction l with
  | nil => by_cases h : k = a <;> simp [lookupA, h]
  | cons p rest ih =>
    obtain ⟨k1, v1⟩ := p
    rw [List.map_cons]
    dsimp only
    by_cases h1 : k1 = a
    · rw [if_pos h1]
      by_cases h2 : k1 = k
      · subst h2
        simp [lookupA, h1, ih]
      · have h2' : ¬k = k1 := fun hh => h2 hh.symm
        simp [lookupA, h2, h2', ih]
    · rw [if_neg h1]
      by_cases h2 : k1 = k
      · subst h2
        simp [lookupA, h1]
      · simp [lookupA, h1, h2, ih]

theorem heapGet_heapModify (s : Sys) (a tid : Nat) (f : TileRec → TileRec) :
    heapGet (heapModify s a f) tid =
      if tid = a then (heapGet s tid).map f else heapGet s tid := by
  simp [heapGet, heapModify, lookupA_map_update]

theorem heapModify_fields (s : Sys) (a : Nat) (f : TileRec → TileRec) :
    (heapModify s a f).caches = s.caches ∧
    (heapModify s a f).pendingRenders = s.pendingRenders ∧
    (heapModify s a f).nextTileId = s.nextTileId ∧
    (heapModify s a f).fetchLog = s.fetchLog ∧
    (heapModify s a f).nextConsumerId = s.nextConsumerId ∧
    (heapModify s a f).nextRenderId = s.nextRenderId ∧
    (heapModify s a f).settleLog = s.settleLog ∧
    (heapModify s a f).clearLog = s.clearLog ∧
    (heapModify s a f).blockRenderLog = s.blockRenderLog ∧
    (heapModify s a f).copyLog = s.copyLog ∧
    (heapModify s a f).abortLog = s.abortLog ∧
    (heapModify s a f).unloadLog = s.unloadLog := by
  simp [heapModify]

theorem bumpUses_heapGet (tids : List Nat) : ∀ (s : Sys) (tid : Nat),
    heapGet (bumpUses s tids) tid =
      (heapGet s tid).map (fun t => { t with uses := t.uses + tids.count tid }) := by
  induction tids with
  | nil =>
    intro s tid
    cases h : heapGet s tid <;> simp [bumpUses, h]
  | cons a rest ih =>
    intro s tid
    rw [bumpUses, ih, heapGet_heapModify]
    by_cases h : tid = a
    · subst h
      rw [if_pos rfl, List.count_cons_self]
      cases hg : heapGet s tid with
      | none => rfl
      | some t =>
        simp only [Option.map_some', Option.some.injEq, TileRec.mk.injEq, and_true,
          true_and]
        omega
    · rw [if_neg h, List.count_cons_of_ne h]

theorem bumpUses_fields (tids : List Nat) : ∀ (s : Sys),
    (bumpUses s tids).caches = s.caches ∧
    (bumpUses s tids).pendingRenders = s.pendingRenders ∧
    (bumpUses s tids).nextTileId = s.nextTileId ∧
    (bumpUses s tids).fetchLog = s.fetchLog ∧
    (bumpUses s tids).nextConsumerId = s.nextConsumerId ∧
    (bumpUses s tids).nextRenderId = s.nextRenderId ∧
    (bumpUses s tids).settleLog = s.settleLog := by
  induction tids with
  | nil => intro s; simp [bumpUses]
  | cons a rest ih =>
    intro s
    rw [bumpUses]
    simpa [heapModify] using ih _

theorem acquireTile_snd (s : Sys) (src : String) (k : TileKey) (size : Int) :
    (acquireTile s src k size).2 = s.nextTileId := rfl

theorem acquireTile_nextTileId (s : Sys) (src : String) (k : TileKey) (size : Int) :
    (acquireTile s src k size).1.nextTileId = s.nextTileId + 1 := rfl

theorem acquireTile_pendingRenders (s : Sys) (src : String) (k : TileKey) (size : Int) :
    (acquireTile s src k size).1.pendingRenders = s.pendingRenders := rfl

theorem acquireTile_nextConsumerId (s : Sys) (src : String) (k : TileKey) (size : Int) :
    (acquireTile s src k size).1.nextConsumerId = s.nextConsumerId := rfl

theorem acquireTile_nextRenderId (s : Sys) (src : String) (k : TileKey) (size : Int) :
    (acquireTile s src k size).1.nextRenderId = s.nextRenderId := rfl

theorem acquireTile_settleLog (s : Sys) (src : String) (k : TileKey) (size : Int) :
    (acquireTile s src k size).1.settleLog = s.settleLog := rfl

theorem acquireAll_spec (specs : List CanonTileSpec) : ∀ (s : Sys),
    (acquireAll s specs).2 = List.range' s.nextTileId specs.length ∧
    (acquireAll s specs).1.nextTileId = s.nextTileId + specs.length ∧
    (acquireAll s specs).1.pendingRenders = s.pendingRenders ∧
    (acquireAll s specs).1.nextConsumerId = s.nextConsumerId ∧
    (acquireAll s specs).1.nextRenderId = s.nextRenderId ∧
    (acquireAll s specs).1.settleLog = s.settleLog := by
  induction specs with
  | nil => intro s; simp [acquireAll, List.range']
  | cons sp rest ih =>
    intro s
    have h := ih (acquireTile s sp.source ⟨sp.z, sp.x, sp.y⟩ sp.size).1
    simp only [acquireAll, h.1, h.2.1, h.2.2.1, h.2.2.2.1, h.2.2.2.2.1, h.2.2.2.2.2,
      acquireTile_snd, acquireTile_nextTileId, acquireTile_pendingRenders,
      acquireTile_nextConsumerId, acquireTile_nextRenderId, acquireTile_settleLog,
      List.length_cons]
    refine ⟨?_, by omega, trivial, trivial, trivial, trivial⟩
    rw [List.range'_succ]

/-- `releaseTile` never touches the pending-render registry, the settlement
log, or the renderer-side event logs. -/
theorem releaseTileE_frames (s s1 : Sys) (tid : Nat)
    (h : releaseTileE s tid = .ok s1) :
    s1.pendingRenders = s.pendingRenders ∧ s1.settleLog = s.settleLog ∧
    s1.clearLog = s.clearLog ∧ s1.blockRenderLog = s.blockRenderLog ∧
    s1.copyLog = s.copyLog ∧ s1.nextConsumerId = s.nextConsumerId := by
  unfold releaseTileE at h
  cases hg : heapGet s tid with
  | none => rw [hg] at h; exact absurd h (by simp)
  | some t =>
    rw [hg] at h
    dsimp only at h
    by_cases h0 : t.uses = 0
    · rw [if_pos h0] at h; exact absurd h (by simp)
    · rw [if_neg h0] at h
      by_cases h1 : 0 < t.uses - 1
      · rw [if_pos h1] at h
        cases h
        simp [heapSet]
      · rw [if_neg h1] at h
        by_cases h2 : t.hasData || t.isDud
        · simp only [if_pos h2] at h
          cases h
          simp only [tileCacheAdd]
          by_cases h3 : TILE_CACHE_SIZE <
              ((getCache (setCache (heapSet s tid { t with uses := t.uses - 1 }) t.src
                { getCache (heapSet s tid { t with uses := t.uses - 1 }) t.src with
                    tilesInUse := eraseA t.key
                      (getCache (heapSet s tid { t with uses := t.uses - 1 }) t.src).tilesInUse })
                t.src).tileCache ++ [(t.key, tid)]).length
          · rw [if_pos h3]
            split
            · simp [setCache, heapSet]
            · simp [setCache, heapSet]
          · rw [if_neg h3]
            simp [setCache, heapSet]
        · simp only [if_neg h2] at h
          cases h
          simp [setCache, heapSet]

theorem foldlM_releaseTileE_frames (tids : List Nat) : ∀ (s s1 : Sys),
    tids.foldlM (fun s tid => releaseTileE s tid) s = Except.ok s1 →
    s1.pendingRenders = s.pendingRenders ∧ s1.settleLog = s.settleLog ∧
    s1.clearLog = s.clearLog ∧ s1.blockRenderLog = s.blockRenderLog ∧
    s1.copyLog = s.copyLog ∧ s1.nextConsumerId = s.nextConsumerId := by
  induction tids with
  | nil =>
    intro s s1 h
    simp only [List.foldlM] at h
    cases h
    exact ⟨rfl, rfl, rfl, rfl, rfl, rfl⟩
  | cons a rest ih =>
    intro s s1 h
    rw [List.foldlM_cons] at h
    cases ha : releaseTileE s a with
    | error e => rw [ha] at h; exact absurd h (by simp [Bind.bind, Except.bind])
    | ok s2 =>
      rw [ha] at h
      have h2 : rest.foldlM (fun s tid => releaseTileE s tid) s2 = Except.ok s1 := h
      have f1 := releaseTileE_frames s s2 a ha
      have f2 := ih s2 s1 h2
      exact ⟨f2.1.trans f1.1, f2.2.1.trans f1.2.1, f2.2.2.1.trans f1.2.2.1,
        f2.2.2.2.1.trans f1.2.2.2.1, f2.2.2.2.2.1.trans f1.2.2.2.2.1,
        f2.2.2.2.2.2.trans f1.2.2.2.2.2⟩

theorem processBlock_spec (s : Sys) (cs : List Consumer) (xx yy : Int) :
    (processBlock s cs xx yy).blockRenderLog =
      s.blockRenderLog ++ renderedBlocks cs [(xx, yy)] ∧
    (processBlock s cs xx yy).copyLog = s.copyLog ++ blockCopies cs [(xx, yy)] ∧
    (processBlock s cs xx yy).settleLog = s.settleLog ∧
    (processBlock s cs xx yy).pendingRenders = s.pendingRenders ∧
    (processBlock s cs xx yy).clearLog = s.clearLog := by
  by_cases h : (cs.filter (fun c => overlapsBlock c xx yy)).length = 0
  · have hf : cs.filter (fun c => overlapsBlock c xx yy) = [] := List.length_eq_zero.mp h
    simp [processBlock, renderedBlocks, blockCopies, h, hf, List.filter]
  · simp [processBlock, renderedBlocks, blockCopies, h, List.filter]

theorem foldl_processBlock_spec (ps : List (Int × Int)) : ∀ (s : Sys) (cs : List Consumer),
    (ps.foldl (fun s p => processBlock s cs p.1 p.2) s).blockRenderLog =
      s.blockRenderLog ++ renderedBlocks cs ps ∧
    (ps.foldl (fun s p => processBlock s cs p.1 p.2) s).copyLog =
      s.copyLog ++ blockCopies cs ps ∧
    (ps.foldl (fun s p => processBlock s cs p.1 p.2) s).settleLog = s.settleLog ∧
    (ps.foldl (fun s p => processBlock s cs p.1 p.2) s).pendingRenders = s.pendingRenders ∧
    (ps.foldl (fun s p => processBlock s cs p.1 p.2) s).clearLog = s.clearLog := by
  induction ps with
  | nil => intro s cs; simp [renderedBlocks, blockCopies]
  | cons p rest ih =>
    intro s cs
    rw [List.foldl_cons]
    have h1 := processBlock_spec s cs p.1 p.2
    have h2 := ih (processBlock s cs p.1 p.2) cs
    refine ⟨?_, ?_, h2.2.2.1.trans h1.2.2.1, h2.2.2.2.1.trans h1.2.2.2.1,
      h2.2.2.2.2.trans h1.2.2.2.2⟩
    · rw [h2.1, h1.1, List.append_assoc]
      have : renderedBlocks cs (p :: rest) =
          renderedBlocks cs [p] ++ renderedBlocks cs rest := by
        simp [renderedBlocks, List.filter]
        split <;> simp
      rw [this]
    · rw [h2.2.1, h1.2.1, List.append_assoc]
      have : blockCopies cs (p :: rest) = blockCopies cs [p] ++ blockCopies cs rest := by
        simp [blockCopies]
      rw [this]

/-- The two nested block loops are the single loop over the column-major
product list. -/
theorem foldl_nested_processBlock (xs ys : List Int) (cs : List Consumer) : ∀ (s : Sys),
    xs.foldl (fun s xx => ys.foldl (fun s yy => processBlock s cs xx yy) s) s =
      (xs.flatMap (fun xx => ys.map (fun yy => (xx, yy)))).foldl
        (fun s p => processBlock s cs p.1 p.2) s := by
  induction xs with
  | nil => intro s; simp
  | cons x rest ih =>
    intro s
    rw [List.foldl_cons, List.flatMap_cons, List.foldl_append, ih, List.foldl_map]


theorem eraseA_insertA_of_none {α β : Type} [DecidableEq α] (k : α) (v : β)
    (l : List (α × β)) (h : lookupA k l = none) : eraseA k (insertA k v l) = l := by
  induction l with
  | nil => simp [insertA, eraseA]
  | cons p rest ih =>
    obtain ⟨k1, v1⟩ := p
    by_cases h1 : k1 = k
    · rw [lookupA, if_pos h1] at h
      exact absurd h (by simp)
    · rw [lookupA, if_neg h1] at h
      rw [insertA, if_neg h1, eraseA, if_neg h1, ih h]

/-- The placement-recording fold of the continuation (index.ts:420-429) only
mutates tile objects on the heap. -/
theorem placementFold_fields (idxs : List Nat) (tilesSpec : List CanonTileSpec)
    (tiles badTileIdxs : List Nat) : ∀ (s : Sys),
    (idxs.foldl (fun s ii =>
        if badTileIdxs.contains ii then s
        else
          match tilesSpec.get? ii, tiles.get? ii with
          | some sp, some tid =>
              heapModify s tid (fun t =>
                { t with tsize := sp.size, left := sp.left, top := sp.top })
          | _, _ => s) s) =
      { s with heap :=
          (idxs.foldl (fun s ii =>
            if badTileIdxs.contains ii then s
            else
              match tilesSpec.get? ii, tiles.get? ii with
              | some sp, some tid =>
                  heapModify s tid (fun t =>
                    { t with tsize := sp.size, left := sp.left, top := sp.top })
              | _, _ => s) s).heap } := by
  induction idxs with
  | nil => intro s; simp
  | cons i rest ih =>
    intro s
    rw [List.foldl_cons]
    by_cases hb : badTileIdxs.contains i
    · rw [if_pos hb]
      exact ih s
    · rw [if_neg hb]
      cases hsp : tilesSpec.get? i with
      | none =>
        cases ht : tiles.get? i with
        | none => exact ih s
        | some tid => exact ih s
      | some sp =>
        cases ht : tiles.get? i with
        | none => exact ih s
        | some tid =>
          exact (ih (heapModify s tid (fun t =>
            { t with tsize := sp.size, left := sp.left, top := sp.top }))).trans rfl

theorem recordPlacements_fields (s : Sys) (tilesSpec : List CanonTileSpec)
    (tiles badTileIdxs : List Nat) :
    recordPlacements s tilesSpec tiles badTileIdxs =
      { s with heap := (recordPlacements s tilesSpec tiles badTileIdxs).heap } :=
  placementFold_fields (List.range tilesSpec.length) tilesSpec tiles badTileIdxs s

/-- The block loop appends exactly the painter events for the blocks of the
column-major grid that have an overlapping consumer, and the copy-out events
for the overlapping consumers of each block; it touches nothing else. -/
theorem compositeBlocks_spec (s : Sys) (cs : List Consumer) :
    (compositeBlocks s cs).blockRenderLog =
      s.blockRenderLog ++ renderedBlocks cs (blockGrid cs) ∧
    (compositeBlocks s cs).copyLog = s.copyLog ++ blockCopies cs (blockGrid cs) ∧
    (compositeBlocks s cs).settleLog = s.settleLog ∧
    (compositeBlocks s cs).pendingRenders = s.pendingRenders ∧
    (compositeBlocks s cs).clearLog = s.clearLog := by
  unfold compositeBlocks blockGrid
  rw [foldl_nested_processBlock]
  exact foldl_processBlock_spec _ _ _

/-- What `renderTiles` does when the fingerprint already has a pending state:
bump every tile's usage counter, append the new consumer, and return the
existing state's render id and tiles. -/
theorem renderTiles_hit (s : Sys) (ctx : Nat) (d : DrawSpec) (ts : List TileSpec)
    (st : Pending)
    (h : lookupA (tileSpecToString (canonicalizeSpec ts d).1) s.pendingRenders = some st) :
    renderTiles s ctx d ts =
      (let tsid := tileSpecToString (canonicalizeSpec ts d).1
       let newC : Consumer :=
         { cid := s.nextConsumerId, ctx := ctx, drawSpec := (canonicalizeSpec ts d).2 }
       let st' : Pending := { st with consumers := st.consumers ++ [newC] }
       let s1 := bumpUses { s with nextConsumerId := s.nextConsumerId + 1 } st.tiles
       ({ s1 with pendingRenders := insertA tsid st' s1.pendingRenders },
        { renderId := st.renderId, cid := s.nextConsumerId, tiles := st.tiles,
          tileSetID := tsid })) := by
  simp only [renderTiles]
  rw [h]

/-- What `renderTiles` does when no pending state matches the fingerprint:
allocate a fresh render id, acquire one tile per canonical spec, and register
a new pending state under the fingerprint. -/
theorem renderTiles_miss (s : Sys) (ctx : Nat) (d : DrawSpec) (ts : List TileSpec)
    (h : lookupA (tileSpecToString (canonicalizeSpec ts d).1) s.pendingRenders = none) :
    renderTiles s ctx d ts =
      (let tsid := tileSpecToString (canonicalizeSpec ts d).1
       let newC : Consumer :=
         { cid := s.nextConsumerId, ctx := ctx, drawSpec := (canonicalizeSpec ts d).2 }
       let acq := acquireAll { s with nextConsumerId := s.nextConsumerId + 1,
                                      nextRenderId := s.nextRenderId + 1 }
          (canonicalizeSpec ts d).1
       let st : Pending :=
         { tileSetID := tsid, renderId := s.nextRenderId + 1, tiles := acq.2,
           consumers := [newC] }
       ({ acq.1 with pendingRenders := insertA tsid st acq.1.pendingRenders },
        { renderId := s.nextRenderId + 1, cid := s.nextConsumerId, tiles := acq.2,
          tileSetID := tsid })) := by
  simp only [renderTiles]
  rw [h]

/-- `finishRender` only settles consumers and edits the pending registry. -/
theorem finishRender_frames (s : Sys) (tsid : String) (rid : Nat) (out : Outcome) :
    (finishRender s tsid rid out).heap = s.heap ∧
    (finishRender s tsid rid out).caches = s.caches ∧
    (finishRender s tsid rid out).unloadLog = s.unloadLog ∧
    (finishRender s tsid rid out).abortLog = s.abortLog ∧
    (finishRender s tsid rid out).clearLog = s.clearLog := by
  unfold finishRender
  cases h : lookupA tsid s.pendingRenders with
  | none => exact ⟨rfl, rfl, rfl, rfl, rfl⟩
  | some st =>
    dsimp only
    by_cases hr : st.renderId ≠ rid
    · rw [if_pos hr]; exact ⟨rfl, rfl, rfl, rfl, rfl⟩
    · rw [if_neg hr]; exact ⟨rfl, rfl, rfl, rfl, rfl⟩

/-! ### Claim theorems -/

/-- C1 (code bug): the claim says `acquireTile` returns an already-tracked
Tile for the same coordinate and issues no second fetch; in the code
`acquireTile` unconditionally constructs a fresh `Tile`, so a second
acquisition of the very same coordinate returns a different tile object,
issues a second load request, overwrites the in-use binding, and leaves the
first tile (still referenced, usage count 1) orphaned. -/
theorem C1_acquireTile_always_constructs_and_refetches :
    c1r2.2 ≠ c1r1.2 ∧
    c1r2.1.fetchLog = [c1r1.2, c1r2.2] ∧
    lookupA c1key (getCache c1r2.1 "osm").tilesInUse = some c1r2.2 ∧
    (heapGet c1r2.1 c1r1.2).map TileRec.uses = some 1 := by decide

/-- C2 (code bug): after two `acquireTile` calls for the same coordinate, the
first returned tile still has usage count 1 (it is still referenced by its
caller) yet is present in neither the in-use set (its binding was overwritten
by the second tile) nor the LRU cache — contradicting the exactly-one-owner
invariant the claim states. -/
theorem C2_referenced_tile_in_neither_collection :
    (heapGet c2r2.1 c2r1.2).map TileRec.uses = some 1 ∧
    c2r1.2 ∉ ((getCache c2r2.1 "osm").tilesInUse.map Prod.snd) ∧
    c2r1.2 ∉ ((getCache c2r2.1 "osm").tileCache.map Prod.snd) := by decide

/-- C5 (confirmed): if the pending registry no longer holds this render's
`tileSetID`, or holds it with a different `renderId`, then both the tile-load
continuation and `_finishRender` leave the state completely unchanged: no
compositing, no consumer settlement, no registry mutation. -/
theorem C5_stale_continuation_is_noop (s : Sys) (tileSetID : String) (renderId : Nat)
    (tilesSpec : List CanonTileSpec) (drawSpec : CanonDrawSpec) (badTileIdxs : List Nat)
    (hstale : ∀ st, lookupA tileSetID s.pendingRenders = some st → st.renderId ≠ renderId) :
    renderContinuation s tileSetID renderId tilesSpec drawSpec badTileIdxs = s ∧
    (∀ out, finishRender s tileSetID renderId out = s) := by
  constructor
  · unfold renderContinuation
    cases h : lookupA tileSetID s.pendingRenders with
    | none => rfl
    | some st =>
      dsimp only
      rw [if_pos (hstale st h)]
  · intro out
    unfold finishRender
    cases h : lookupA tileSetID s.pendingRenders with
    | none => rfl
    | some st =>
      dsimp only
      rw [if_pos (hstale st h)]

theorem C5_stale_continuation_is_noop_witness :
    (∀ st, lookupA "zz" initSys.pendingRenders = some st → st.renderId ≠ 3) ∧
    (renderContinuation initSys "zz" 3 [] ⟨.negInf, .negInf, 9, 9, 0, 0⟩ [] = initSys ∧
     ∀ out, finishRender initSys "zz" 3 out = initSys) :=
  ⟨fun _ hst => Option.noConfusion hst,
   C5_stale_continuation_is_noop initSys "zz" 3 [] ⟨.negInf, .negInf, 9, 9, 0, 0⟩ []
     (fun _ hst => Option.noConfusion hst)⟩

theorem getCache_setCache (s : Sys) (src : String) (c : SrcCache) :
    getCache (setCache s src c) src = c := by
  simp [getCache, setCache, lookupA_insertA_self]

/-- Inserting into the LRU cache appends the tile as the most-recent entry,
evicting (and unloading) the oldest entry when over capacity; nothing else of
the state is touched. -/
theorem tileCacheAdd_spec (s : Sys) (src : String) (k : TileKey) (tid : Nat) :
    (getCache (tileCacheAdd s src k tid) src).tileCache.getLast? = some (k, tid) ∧
    (getCache (tileCacheAdd s src k tid) src).tilesInUse = (getCache s src).tilesInUse ∧
    (tileCacheAdd s src k tid).heap = s.heap ∧
    (tileCacheAdd s src k tid).abortLog = s.abortLog ∧
    (tileCacheAdd s src k tid).pendingRenders = s.pendingRenders ∧
    (tileCacheAdd s src k tid).settleLog = s.settleLog := by
  unfold tileCacheAdd
  by_cases hlen : TILE_CACHE_SIZE < ((getCache s src).tileCache ++ [(k, tid)]).length
  · rw [if_pos hlen]
    cases hcons : (getCache s src).tileCache ++ [(k, tid)] with
    | nil => exact absurd hcons (by simp)
    | cons evicted rest =>
      simp only [getCache_setCache, setCache, getCache]
      have hrest : rest.getLast? = some (k, tid) := by
        cases rest with
        | nil =>
          exfalso
          have : ((getCache s src).tileCache ++ [(k, tid)]).length = 1 := by
            rw [hcons]; rfl
          rw [this] at hlen
          exact absurd hlen (by decide)
        | cons r rs =>
          have h1 : ((getCache s src).tileCache ++ [(k, tid)]).getLast? = some (k, tid) :=
            List.getLast?_concat _
          rw [hcons, List.getLast?_cons_cons] at h1
          exact h1
      simp [lookupA_insertA_self, hrest]
  · rw [if_neg hlen]
    rw [getCache_setCache]
    exact ⟨List.getLast?_concat _, rfl, rfl, rfl, rfl, rfl⟩

/-- When a full cache receives a new entry, the least-recently-released entry
(the head of the cache list) is evicted and its tile unloaded, and the rest of
the cache plus the new entry remain. -/
theorem tileCacheAdd_evict (s : Sys) (src : String) (k : TileKey) (tid : Nat)
    (ev : TileKey × Nat) (rest : List (TileKey × Nat))
    (hfull : (getCache s src).tileCache = ev :: rest)
    (hlen : (getCache s src).tileCache.length = TILE_CACHE_SIZE) :
    (getCache (tileCacheAdd s src k tid) src).tileCache = rest ++ [(k, tid)] ∧
    (tileCacheAdd s src k tid).unloadLog = s.unloadLog ++ [ev.2] := by
  unfold tileCacheAdd
  have hlen2 : TILE_CACHE_SIZE < ((getCache s src).tileCache ++ [(k, tid)]).length := by
    simp [hlen]
  rw [if_pos hlen2]
  have hcons : (getCache s src).tileCache ++ [(k, tid)] = ev :: (rest ++ [(k, tid)]) := by
    rw [hfull]; rfl
  rw [hcons]
  simp [getCache_setCache, setCache, getCache, lookupA_insertA_self]

/-- C6 (confirmed): `releaseTile` decrements the usage counter; releasing a
tile whose counter is already 0 fails the fatal `assert(tile.uses > 0)`; when
the counter reaches 0 the tile's key is removed from the in-use set and the
tile is inserted (as most-recent entry) into the LRU cache iff it has data or
is a dud (with no abort), otherwise its in-flight fetch is aborted and the
tile unloaded immediately, the cache left untouched. -/
theorem C6_releaseTile_spec (s : Sys) (tid : Nat) (t : TileRec)
    (ht : heapGet s tid = some t)
    (hnk : ((getCache s t.src).tilesInUse.map Prod.fst).Nodup) :
    (t.uses = 0 → releaseTileE s tid = .error ()) ∧
    (∀ n, t.uses = n + 2 →
        releaseTileE s tid = .ok (heapSet s tid { t with uses := n + 1 })) ∧
    (t.uses = 1 → ∃ s1, releaseTileE s tid = .ok s1 ∧
        heapGet s1 tid = some { t with uses := 0 } ∧
        lookupA t.key (getCache s1 t.src).tilesInUse = none ∧
        ((t.hasData || t.isDud) = true →
           (getCache s1 t.src).tileCache.getLast? = some (t.key, tid) ∧
           s1.abortLog = s.abortLog) ∧
        ((t.hasData || t.isDud) = false →
           s1.abortLog = s.abortLog ++ [tid] ∧ s1.unloadLog = s.unloadLog ++ [tid] ∧
           (getCache s1 t.src).tileCache = (getCache s t.src).tileCache)) := by
  refine ⟨?_, ?_, ?_⟩
  · intro h0
    unfold releaseTileE
    rw [ht]
    dsimp only
    rw [if_pos h0]
  · intro n hn
    unfold releaseTileE
    rw [ht]
    dsimp only
    rw [if_neg (by omega : ¬t.uses = 0), if_pos (by simp; omega)]
    simp [hn]
  · intro h1
    unfold releaseTileE
    rw [ht]
    dsimp only
    rw [if_neg (by omega : ¬t.uses = 0), if_neg (by simp [h1])]
    have hgc : getCache (heapSet s tid { t with uses := t.uses - 1 }) t.src =
        getCache s t.src := rfl
    by_cases hd : (t.hasData || t.isDud) = true
    · rw [if_pos hd]
      have hspec := tileCacheAdd_spec
        (setCache (heapSet s tid { t with uses := t.uses - 1 }) t.src
          { getCache (heapSet s tid { t with uses := t.uses - 1 }) t.src with
              tilesInUse := eraseA t.key
                (getCache (heapSet s tid { t with uses := t.uses - 1 }) t.src).tilesInUse })
        t.src t.key tid
      refine ⟨_, rfl, ?_, ?_, ?_, ?_⟩
      · rw [show heapGet (tileCacheAdd _ t.src t.key tid) tid =
            lookupA tid (tileCacheAdd _ t.src t.key tid).heap from rfl, hspec.2.2.1]
        simp [setCache, heapSet, heapGet, lookupA_insertA_self, h1]
      · rw [hspec.2.1, getCache_setCache]
        rw [hgc]
        exact lookupA_eraseA_self_of_nodup _ _ hnk
      · intro _
        refine ⟨hspec.1, ?_⟩
        rw [hspec.2.2.2.1]
        rfl
      · intro hnd
        rw [hd] at hnd
        exact absurd hnd (by simp)
    · rw [if_neg hd]
      refine ⟨_, rfl, ?_, ?_, ?_, ?_⟩
      · simp [heapSet, setCache, heapGet, lookupA_insertA_self, h1]
      · simp only [getCache, setCache, heapSet, lookupA_insertA_self, Option.getD_some]
        exact lookupA_eraseA_self_of_nodup _ _ hnk
      · intro hdd
        exact absurd hdd hd
      · intro _
        refine ⟨rfl, rfl, ?_⟩
        simp only [getCache, setCache, heapSet, lookupA_insertA_self, Option.getD_some]

theorem C6_releaseTile_spec_witness :
    heapGet w6s 5 = some w6t ∧ w6t.uses = 0 + 2 ∧
    releaseTileE w6s 5 = Except.ok (heapSet w6s 5 { w6t with uses := 0 + 1 }) :=
  ⟨by decide, by decide,
   (C6_releaseTile_spec w6s 5 w6t (by decide) (by decide)).2.1 0 (by decide)⟩

/-- C7 (confirmed): `releaseRender` first releases every tile of the handle,
in every case (the released-tile state `s1` is reached whatever the registry
holds, and only consumer settlement / the registry may change beyond it); the
tile releases themselves never settle a consumer or change the registry; and
when the registry has no entry under the handle's `tileSetID`, or the entry
carries a different `renderId`, `releaseRender` returns exactly the state
after the tile releases — nothing further happens. -/
theorem C7_releaseRender_spec (s s1 : Sys) (h : RenderHandle)
    (hrel : h.tiles.foldlM (fun s tid => releaseTileE s tid) s = Except.ok s1) :
    (∃ s2, releaseRenderE s h = .ok s2 ∧ s2.heap = s1.heap ∧ s2.caches = s1.caches ∧
       s2.unloadLog = s1.unloadLog ∧ s2.abortLog = s1.abortLog) ∧
    s1.pendingRenders = s.pendingRenders ∧ s1.settleLog = s.settleLog ∧
    ((∀ st, lookupA h.tileSetID s.pendingRenders = some st → st.renderId ≠ h.renderId) →
       releaseRenderE s h = .ok s1) := by
  have hframes := foldlM_releaseTileE_frames h.tiles s s1 hrel
  have hun : releaseRenderE s h =
      (match lookupA h.tileSetID s.pendingRenders with
       | none => pure s1
       | some st =>
         if st.renderId ≠ h.renderId then pure s1
         else
           let sA : Sys := { s1 with settleLog := s1.settleLog ++ [(h.cid, Outcome.canceled)] }
           let consumers' := removeFirstCid h.cid st.consumers
           let st' : Pending := { st with consumers := consumers' }
           let sB : Sys := { sA with pendingRenders := insertA h.tileSetID st' sA.pendingRenders }
           if consumers'.length = 0 then
             pure (finishRender sB h.tileSetID h.renderId .fullyCanceled)
           else
             pure sB) := by
    unfold releaseRenderE
    rw [hrel]
    rfl
  refine ⟨?_, hframes.1, hframes.2.1, ?_⟩
  · rw [hun]
    cases hlk : lookupA h.tileSetID s.pendingRenders with
    | none => exact ⟨s1, rfl, rfl, rfl, rfl, rfl⟩
    | some st =>
      dsimp only
      by_cases hr : st.renderId ≠ h.renderId
      · rw [if_pos hr]
        exact ⟨s1, rfl, rfl, rfl, rfl, rfl⟩
      · rw [if_neg hr]
        by_cases hc : (removeFirstCid h.cid st.consumers).length = 0
        · rw [if_pos hc]
          have hf := finishRender_frames
            { s1 with
                settleLog := s1.settleLog ++ [(h.cid, Outcome.canceled)],
                pendingRenders := insertA h.tileSetID
                  { st with consumers := removeFirstCid h.cid st.consumers }
                  s1.pendingRenders }
            h.tileSetID h.renderId .fullyCanceled
          exact ⟨_, rfl, hf.1, hf.2.1, hf.2.2.1, hf.2.2.2.1⟩
        · rw [if_neg hc]
          exact ⟨_, rfl, rfl, rfl, rfl, rfl⟩
  · intro hstale
    rw [hun]
    cases hlk : lookupA h.tileSetID s.pendingRenders with
    | none => rfl
    | some st =>
      dsimp only
      rw [if_pos (hstale st hlk)]
      rfl

theorem C7_releaseRender_spec_witness :
    ([0].foldlM (fun s tid => releaseTileE s tid) w7s = Except.ok w7s1) ∧
    ((∃ s2, releaseRenderE w7s w7h = .ok s2 ∧ s2.heap = w7s1.heap ∧
        s2.caches = w7s1.caches ∧ s2.unloadLog = w7s1.unloadLog ∧
        s2.abortLog = w7s1.abortLog) ∧
     w7s1.pendingRenders = w7s.pendingRenders ∧ w7s1.settleLog = w7s.settleLog ∧
     ((∀ st, lookupA w7h.tileSetID w7s.pendingRenders = some st →
         st.renderId ≠ w7h.renderId) →
        releaseRenderE w7s w7h = .ok w7s1)) :=
  ⟨by rfl, C7_releaseRender_spec w7s w7s1 w7h (by rfl)⟩

/-- C9 (confirmed; the cache class is modelled from the spec): with the LRU
cache at the default capacity `TILE_CACHE_SIZE = 20`, releasing a data-holding
tile whose usage count drops to 0 — the 21st distinct unused tile — evicts the
least-recently-released cache entry (the head of the cache order) and invokes
the source's unload on the evicted tile, leaving the remaining 19 entries plus
the newly released tile. -/
theorem C9_lru_eviction (s : Sys) (tid : Nat) (t : TileRec)
    (ht : heapGet s tid = some t) (hu : t.uses = 1) (hd : t.hasData = true)
    (hlen : (getCache s t.src).tileCache.length = TILE_CACHE_SIZE) :
    ∃ s1 ev rest, releaseTileE s tid = .ok s1 ∧
      (getCache s t.src).tileCache = ev :: rest ∧
      s1.unloadLog = s.unloadLog ++ [ev.2] ∧
      (getCache s1 t.src).tileCache = rest ++ [(t.key, tid)] := by
  unfold releaseTileE
  rw [ht]
  dsimp only
  rw [if_neg (by omega : ¬t.uses = 0), if_neg (by simp [hu]), if_pos (by simp [hd])]
  obtain ⟨ev, rest, hcons⟩ : ∃ ev rest, (getCache s t.src).tileCache = ev :: rest := by
    cases hc : (getCache s t.src).tileCache with
    | nil => rw [hc] at hlen; exact absurd hlen (by decide)
    | cons a r => exact ⟨a, r, rfl⟩
  have hgc2 : getCache
      (setCache (heapSet s tid { t with uses := t.uses - 1 }) t.src
        { getCache (heapSet s tid { t with uses := t.uses - 1 }) t.src with
            tilesInUse := eraseA t.key
              (getCache (heapSet s tid { t with uses := t.uses - 1 }) t.src).tilesInUse })
      t.src =
      { getCache s t.src with tilesInUse := eraseA t.key (getCache s t.src).tilesInUse } :=
    getCache_setCache _ _ _
  have hevict := tileCacheAdd_evict
    (setCache (heapSet s tid { t with uses := t.uses - 1 }) t.src
      { getCache (heapSet s tid { t with uses := t.uses - 1 }) t.src with
          tilesInUse := eraseA t.key
            (getCache (heapSet s tid { t with uses := t.uses - 1 }) t.src).tilesInUse })
    t.src t.key tid ev rest (by rw [hgc2]; exact hcons) (by rw [hgc2]; exact hlen)
  exact ⟨_, ev, rest, rfl, hcons, hevict.2, hevict.1⟩

theorem C9_lru_eviction_witness :
    heapGet w9s 55 = some w9t ∧ w9t.uses = 1 ∧ w9t.hasData = true ∧
    (getCache w9s w9t.src).tileCache.length = TILE_CACHE_SIZE ∧
    (∃ s1 ev rest, releaseTileE w9s 55 = .ok s1 ∧
      (getCache w9s w9t.src).tileCache = ev :: rest ∧
      s1.unloadLog = w9s.unloadLog ++ [ev.2] ∧
      (getCache s1 w9t.src).tileCache = rest ++ [(w9t.key, 55)]) :=
  ⟨by decide, by decide, by decide, by decide,
   C9_lru_eviction w9s 55 w9t (by decide) (by decide) (by decide) (by decide)⟩

/-- C10 (confirmed): submitting `renderTiles` with an empty `tilesSpec` list
canonicalizes the draw spec's source coordinates to `-Infinity` (the minimum
over an empty list is `Infinity`), computes the empty-string fingerprint,
acquires no tiles and issues no fetches, and — when its continuation runs,
which waits on no tile loads — clears the consumer's destination rectangle on
its context, settles the consumer exactly once with the `null` (success)
outcome, and removes the pending state. -/
theorem C10_empty_tilesSpec (s0 : Sys) (ctx : Nat) (d : DrawSpec)
    (hfresh : lookupA (tileSpecToString (canonicalizeSpec [] d).1) s0.pendingRenders = none) :
    (canonicalizeSpec ([] : List TileSpec) d).2.srcLeft = .negInf ∧
    (canonicalizeSpec ([] : List TileSpec) d).2.srcTop = .negInf ∧
    tileSpecToString (canonicalizeSpec ([] : List TileSpec) d).1 = "" ∧
    (∀ s1 h1 s2, renderTiles s0 ctx d [] = (s1, h1) →
      renderContinuation s1 h1.tileSetID h1.renderId (canonicalizeSpec [] d).1
        (canonicalizeSpec [] d).2 [] = s2 →
      h1.tiles = [] ∧ s1.fetchLog = s0.fetchLog ∧ s1.nextTileId = s0.nextTileId ∧
      s2.clearLog = s1.clearLog ++
        [{ ctx := ctx, left := d.destLeft, top := d.destTop, width := d.width,
           height := d.height }] ∧
      s2.settleLog = s1.settleLog ++ [(s0.nextConsumerId, Outcome.ok)] ∧
      lookupA h1.tileSetID s2.pendingRenders = none) := by
  refine ⟨rfl, rfl, rfl, ?_⟩
  intro s1 h1 s2 hr hc
  have hcanon1 : (canonicalizeSpec ([] : List TileSpec) d).1 = [] := rfl
  rw [renderTiles_miss s0 ctx d [] hfresh] at hr
  rw [hcanon1] at hr
  simp only [acquireAll] at hr
  rw [Prod.mk.injEq] at hr
  obtain ⟨hs1, hh1⟩ := hr
  subst hs1
  subst hh1
  subst hc
  rw [hcanon1]
  have hfresh2 : lookupA (tileSpecToString ([] : List CanonTileSpec)) s0.pendingRenders =
      none := by rw [hcanon1] at hfresh; exact hfresh
  refine ⟨rfl, rfl, rfl, ?_, ?_, ?_⟩
  · unfold renderContinuation
    rw [lookupA_insertA_self]
    dsimp only
    rw [if_neg (by simp), if_pos (by norm_num)]
    unfold finishRender
    rw [lookupA_insertA_self]
    dsimp only
    rw [if_neg (by simp)]
    rfl
  · unfold renderContinuation
    rw [lookupA_insertA_self]
    dsimp only
    rw [if_neg (by simp), if_pos (by norm_num)]
    unfold finishRender
    rw [lookupA_insertA_self]
    dsimp only
    rw [if_neg (by simp)]
    rfl
  · unfold renderContinuation
    rw [lookupA_insertA_self]
    dsimp only
    rw [if_neg (by simp), if_pos (by norm_num)]
    unfold finishRender
    rw [lookupA_insertA_self]
    dsimp only
    rw [if_neg (by simp)]
    show lookupA _ (eraseA _ (insertA _ _ s0.pendingRenders)) = none
    rw [eraseA_insertA_of_none _ _ _ hfresh2]
    exact hfresh2

theorem C10_empty_tilesSpec_witness :
    (lookupA (tileSpecToString (canonicalizeSpec [] w10d).1) initSys.pendingRenders = none) ∧
    (w10r.2.tiles = [] ∧ w10r.1.fetchLog = initSys.fetchLog ∧
     w10r.1.nextTileId = initSys.nextTileId ∧
     w10s2.clearLog = w10r.1.clearLog ++
       [{ ctx := 3, left := w10d.destLeft, top := w10d.destTop, width := w10d.width,
          height := w10d.height }] ∧
     w10s2.settleLog = w10r.1.settleLog ++ [(initSys.nextConsumerId, Outcome.ok)] ∧
     lookupA w10r.2.tileSetID w10s2.pendingRenders = none) :=
  ⟨by decide,
   (C10_empty_tilesSpec initSys 3 w10d (by decide)).2.2.2 w10r.1 w10r.2 w10s2 rfl rfl⟩

/-- C4 (corrected), counterexample to the claim as stated: two consumers share
a pending render whose only tile failed; the second consumer's own destination
rectangle is (99, 77, 100, 100) on context 2, but the code clears the
creating submission's rectangle (10, 10, 100, 100) on both contexts — context
2's own region is never cleared. -/
theorem C4_counterexample_own_rect_not_cleared :
    c4end.clearLog =
      [{ ctx := 1, left := 10, top := 10, width := 100, height := 100 },
       { ctx := 2, left := 10, top := 10, width := 100, height := 100 }] ∧
    ({ ctx := 2, left := 99, top := 77, width := 100, height := 100 } : ClearEv) ∉
      c4end.clearLog := by decide

/-- C4 (amended): when all tile loads of a still-current render have settled
with zero usable tiles and at least one failure, the destination rectangle of
the drawSpec captured when the pending state was created is cleared on every
attached consumer's context (not each consumer's own rectangle), every
consumer is settled with the error carrying the failed and total tile counts,
and the pending state is removed from the registry. -/
theorem C4_zero_usable_clears_creator_rect (s : Sys) (tsid : String) (rid : Nat)
    (specs : List CanonTileSpec) (draw : CanonDrawSpec) (bad : List Nat) (st : Pending)
    (hst : lookupA tsid s.pendingRenders = some st) (hrid : st.renderId = rid)
    (hzero : ((specs.length : Int) - (bad.length : Int) = 0))
    (hbad : bad ≠ [])
    (hnk : (s.pendingRenders.map Prod.fst).Nodup) :
    (renderContinuation s tsid rid specs draw bad).clearLog =
      s.clearLog ++ st.consumers.map (fun c =>
        { ctx := c.ctx, left := draw.destLeft, top := draw.destTop,
          width := draw.width, height := draw.height }) ∧
    (renderContinuation s tsid rid specs draw bad).settleLog =
      s.settleLog ++ st.consumers.map
        (fun c => (c.cid, Outcome.err bad.length specs.length)) ∧
    lookupA tsid (renderContinuation s tsid rid specs draw bad).pendingRenders = none := by
  have hbadlen : bad.length ≠ 0 := fun h => hbad (List.length_eq_zero.mp h)
  unfold renderContinuation
  rw [hst]
  dsimp only
  rw [if_neg (by simp [hrid]), if_pos hbadlen, if_pos hzero]
  unfold finishRender
  rw [show ({ s with clearLog := s.clearLog ++ st.consumers.map (fun c =>
        ({ ctx := c.ctx, left := draw.destLeft, top := draw.destTop,
           width := draw.width, height := draw.height } : ClearEv)) } : Sys).pendingRenders =
      s.pendingRenders from rfl, hst]
  dsimp only
  rw [if_neg (by simp [hrid])]
  exact ⟨rfl, rfl, lookupA_eraseA_self_of_nodup _ _ hnk⟩

theorem C4_zero_usable_clears_creator_rect_witness :
    (lookupA c4r1.2.tileSetID c4r2.1.pendingRenders = some c4st ∧
     c4st.renderId = c4r1.2.renderId ∧
     ((c4canon.1.length : Int) - (([0] : List Nat).length : Int) = 0) ∧
     ([0] : List Nat) ≠ [] ∧
     (c4r2.1.pendingRenders.map Prod.fst).Nodup) ∧
    ((renderContinuation c4r2.1 c4r1.2.tileSetID c4r1.2.renderId c4canon.1 c4canon.2
        [0]).clearLog =
      c4r2.1.clearLog ++ c4st.consumers.map (fun c =>
        { ctx := c.ctx, left := c4canon.2.destLeft, top := c4canon.2.destTop,
          width := c4canon.2.width, height := c4canon.2.height }) ∧
     (renderContinuation c4r2.1 c4r1.2.tileSetID c4r1.2.renderId c4canon.1 c4canon.2
        [0]).settleLog =
      c4r2.1.settleLog ++ c4st.consumers.map
        (fun c => (c.cid, Outcome.err ([0] : List Nat).length c4canon.1.length)) ∧
     lookupA c4r1.2.tileSetID (renderContinuation c4r2.1 c4r1.2.tileSetID c4r1.2.renderId
        c4canon.1 c4canon.2 [0]).pendingRenders = none) :=
  ⟨⟨by decide, by decide, by decide, by decide, by decide⟩,
   C4_zero_usable_clears_creator_rect c4r2.1 c4r1.2.tileSetID c4r1.2.renderId c4canon.1
     c4canon.2 [0] c4st (by decide) (by decide) (by decide) (by decide) (by decide)⟩

/-- C3 (confirmed): a second `renderTiles` submission whose canonicalized tile
spec list is a permutation of the pending one's (same sources, zooms, x/y,
sizes and relative placements — i.e. identical up to list order and, thanks to
canonicalization, up to a uniform translation) computes the same `tileSetID`
fingerprint, attaches as an additional consumer to the existing pending state,
shares that state's tiles (the returned handle carries the same render id and
the same tile list, and each shared tile's usage count grows by exactly its
multiplicity — 1, the tile lists being duplicate-free), and acquires no new
tiles and issues no new fetches. -/
theorem C3_equal_canonical_specs_coalesce (s0 : Sys) (ctx1 ctx2 : Nat)
    (d1 d2 : DrawSpec) (L1 L2 : List TileSpec) (s1 s2 : Sys) (h1 h2 : RenderHandle)
    (hperm : List.Perm (canonicalizeSpec L2 d2).1 (canonicalizeSpec L1 d1).1)
    (hfresh : lookupA (tileSpecToString (canonicalizeSpec L1 d1).1) s0.pendingRenders = none)
    (hr1 : renderTiles s0 ctx1 d1 L1 = (s1, h1))
    (hr2 : renderTiles s1 ctx2 d2 L2 = (s2, h2)) :
    h2.tileSetID = h1.tileSetID ∧
    h2.renderId = h1.renderId ∧
    h2.tiles = h1.tiles ∧
    (∃ st1, lookupA h1.tileSetID s1.pendingRenders = some st1 ∧
       lookupA h1.tileSetID s2.pendingRenders =
         some { st1 with consumers := st1.consumers ++
           [{ cid := s1.nextConsumerId, ctx := ctx2,
              drawSpec := (canonicalizeSpec L2 d2).2 }] }) ∧
    s2.nextTileId = s1.nextTileId ∧
    s2.fetchLog = s1.fetchLog ∧
    h1.tiles.Nodup ∧
    (∀ tid r, heapGet s1 tid = some r →
       heapGet s2 tid = some { r with uses := r.uses + h1.tiles.count tid }) := by
  have hts : tileSpecToString (canonicalizeSpec L2 d2).1 =
      tileSpecToString (canonicalizeSpec L1 d1).1 := tileSpecToString_perm hperm
  rw [renderTiles_miss s0 ctx1 d1 L1 hfresh] at hr1
  simp only [Prod.mk.injEq] at hr1
  obtain ⟨hs1, hh1⟩ := hr1
  have hacq := acquireAll_spec (canonicalizeSpec L1 d1).1
    { s0 with nextConsumerId := s0.nextConsumerId + 1, nextRenderId := s0.nextRenderId + 1 }
  have hlk1 : lookupA (tileSpecToString (canonicalizeSpec L1 d1).1) s1.pendingRenders =
      some { tileSetID := tileSpecToString (canonicalizeSpec L1 d1).1,
             renderId := s0.nextRenderId + 1,
             tiles := (acquireAll { s0 with nextConsumerId := s0.nextConsumerId + 1,
                                            nextRenderId := s0.nextRenderId + 1 }
                        (canonicalizeSpec L1 d1).1).2,
             consumers := [{ cid := s0.nextConsumerId, ctx := ctx1,
                             drawSpec := (canonicalizeSpec L1 d1).2 }] } := by
    rw [← hs1]
    exact lookupA_insertA_self _ _ _
  have hlk2 : lookupA (tileSpecToString (canonicalizeSpec L2 d2).1) s1.pendingRenders =
      some { tileSetID := tileSpecToString (canonicalizeSpec L1 d1).1,
             renderId := s0.nextRenderId + 1,
             tiles := (acquireAll { s0 with nextConsumerId := s0.nextConsumerId + 1,
                                            nextRenderId := s0.nextRenderId + 1 }
                        (canonicalizeSpec L1 d1).1).2,
             consumers := [{ cid := s0.nextConsumerId, ctx := ctx1,
                             drawSpec := (canonicalizeSpec L1 d1).2 }] } := by
    rw [hts]
    exact hlk1
  rw [renderTiles_hit s1 ctx2 d2 L2 _ hlk2] at hr2
  simp only [Prod.mk.injEq] at hr2
  obtain ⟨hs2, hh2⟩ := hr2
  have hbump := bumpUses_fields
    (acquireAll { s0 with nextConsumerId := s0.nextConsumerId + 1,
                          nextRenderId := s0.nextRenderId + 1 }
      (canonicalizeSpec L1 d1).1).2
    { s1 with nextConsumerId := s1.nextConsumerId + 1 }
  refine ⟨?_, ?_, ?_, ?_, ?_, ?_, ?_, ?_⟩
  · rw [← hh2, ← hh1]
    exact hts
  · rw [← hh2, ← hh1]
  · rw [← hh2, ← hh1]
  · refine ⟨_, by rw [← hh1]; exact hlk1, ?_⟩
    rw [← hs2, ← hh1]
    dsimp only
    rw [hts]
    rw [show (bumpUses { s1 with nextConsumerId := s1.nextConsumerId + 1 }
          (acquireAll { s0 with nextConsumerId := s0.nextConsumerId + 1,
                                nextRenderId := s0.nextRenderId + 1 }
            (canonicalizeSpec L1 d1).1).2).pendingRenders =
        s1.pendingRenders from hbump.2.1]
    exact lookupA_insertA_self _ _ _
  · rw [← hs2]
    dsimp only
    exact hbump.2.2.1
  · rw [← hs2]
    dsimp only
    exact hbump.2.2.2.1
  · rw [← hh1]
    dsimp only
    rw [hacq.1]
    exact List.nodup_range' _ _
  · intro tid r hg
    have hh : s2.heap =
        (bumpUses { s1 with nextConsumerId := s1.nextConsumerId + 1 }
          (acquireAll { s0 with nextConsumerId := s0.nextConsumerId + 1,
                                nextRenderId := s0.nextRenderId + 1 }
            (canonicalizeSpec L1 d1).1).2).heap := by
      rw [← hs2]
    have hget : heapGet s2 tid =
        heapGet (bumpUses { s1 with nextConsumerId := s1.nextConsumerId + 1 }
          (acquireAll { s0 with nextConsumerId := s0.nextConsumerId + 1,
                                nextRenderId := s0.nextRenderId + 1 }
            (canonicalizeSpec L1 d1).1).2) tid := by
      unfold heapGet
      rw [hh]
    rw [hget, bumpUses_heapGet]
    rw [show heapGet { s1 with nextConsumerId := s1.nextConsumerId + 1 } tid =
        heapGet s1 tid from rfl, hg]
    rw [← hh1]
    rfl

theorem C3_equal_canonical_specs_coalesce_witness :
    (List.Perm (canonicalizeSpec w3L2 w3d2).1 (canonicalizeSpec [w3specA, w3specB] w3d1).1) ∧
    (lookupA (tileSpecToString (canonicalizeSpec [w3specA, w3specB] w3d1).1)
       initSys.pendingRenders = none) ∧
    (w3r2.2.tileSetID = w3r1.2.tileSetID ∧
     w3r2.2.renderId = w3r1.2.renderId ∧
     w3r2.2.tiles = w3r1.2.tiles ∧
     (∃ st1, lookupA w3r1.2.tileSetID w3r1.1.pendingRenders = some st1 ∧
        lookupA w3r1.2.tileSetID w3r2.1.pendingRenders =
          some { st1 with consumers := st1.consumers ++
            [{ cid := w3r1.1.nextConsumerId, ctx := 2,
               drawSpec := (canonicalizeSpec w3L2 w3d2).2 }] }) ∧
     w3r2.1.nextTileId = w3r1.1.nextTileId ∧
     w3r2.1.fetchLog = w3r1.1.fetchLog ∧
     w3r1.2.tiles.Nodup ∧
     (∀ tid r, heapGet w3r1.1 tid = some r →
        heapGet w3r2.1 tid = some { r with uses := r.uses + w3r1.2.tiles.count tid })) :=
  ⟨by decide, by decide,
   C3_equal_canonical_specs_coalesce initSys 1 2 w3d1 w3d2 [w3specA, w3specB] w3L2
     w3r1.1 w3r2.1 w3r1.2 w3r2.2 (by decide) (by decide) rfl rfl⟩

/-- C8 (corrected), counterexample to the claimed iteration order: a single
consumer whose source rectangle spans a 2 x 2 grid of blocks is rendered in
the order (0,0), (0,1024), (1024,0), (1024,1024) — the outer loop walks block
columns (`xx`) and the inner loop block rows (`yy`) — not in the row-major
order (0,0), (1024,0), (0,1024), (1024,1024) the claim states. -/
theorem C8_counterexample_not_row_major :
    c8end.blockRenderLog = [(0, 0), (0, 1024), (1024, 0), (1024, 1024)] ∧
    c8end.blockRenderLog ≠ [(0, 0), (1024, 0), (0, 1024), (1024, 1024)] := by decide

/-- C8 (amended): for a still-current pending render with at least one usable
tile, the compositor iterates the `OFFSCREEN_CANV_SIZE`-sized blocks of the
union bounding box in column-major order (outer loop over block columns left
to right, inner loop over block rows top to bottom); the painter is invoked
exactly for the blocks of that sequence with at least one overlapping
consumer, copy-outs happen exactly for the overlapping consumers of those
blocks, and the overlap test is half-open in all four comparisons, so a
consumer whose rectangle merely touches a block edge is excluded. -/
theorem C8_blocks_column_major (s : Sys) (tsid : String) (rid : Nat)
    (specs : List CanonTileSpec) (draw : CanonDrawSpec) (bad : List Nat) (st : Pending)
    (hst : lookupA tsid s.pendingRenders = some st) (hrid : st.renderId = rid)
    (husable : ¬((specs.length : Int) - (bad.length : Int) = 0)) :
    (renderContinuation s tsid rid specs draw bad).blockRenderLog =
      s.blockRenderLog ++ renderedBlocks st.consumers (blockGrid st.consumers) ∧
    (renderContinuation s tsid rid specs draw bad).copyLog =
      s.copyLog ++ blockCopies st.consumers (blockGrid st.consumers) ∧
    (∀ c xx yy, c.drawSpec.srcLeft.add (.fin c.drawSpec.width) = .fin xx →
       overlapsBlock c xx yy = false) ∧
    (∀ c xx yy, c.drawSpec.srcLeft = .fin (xx + OFFSCREEN_CANV_SIZE) →
       overlapsBlock c xx yy = false) := by
  have hchar : renderContinuation s tsid rid specs draw bad =
      { compositeBlocks (recordPlacements s specs st.tiles bad) st.consumers with
          settleLog :=
            (compositeBlocks (recordPlacements s specs st.tiles bad) st.consumers).settleLog
              ++ st.consumers.map (fun c => (c.cid,
                   if bad.length ≠ 0 then Outcome.err bad.length specs.length
                   else Outcome.ok)),
          pendingRenders := eraseA tsid
            (compositeBlocks (recordPlacements s specs st.tiles bad)
              st.consumers).pendingRenders } := by
    unfold renderContinuation
    rw [hst]
    dsimp only
    rw [if_neg (by simp [hrid]), if_neg husable]
  have hcb := compositeBlocks_spec (recordPlacements s specs st.tiles bad) st.consumers
  have hrpb : (recordPlacements s specs st.tiles bad).blockRenderLog =
      s.blockRenderLog := by
    rw [recordPlacements_fields]
  have hrpc : (recordPlacements s specs st.tiles bad).copyLog = s.copyLog := by
    rw [recordPlacements_fields]
  refine ⟨?_, ?_, ?_, ?_⟩
  · rw [hchar]
    show (compositeBlocks (recordPlacements s specs st.tiles bad)
        st.consumers).blockRenderLog = _
    rw [hcb.1, hrpb]
  · rw [hchar]
    show (compositeBlocks (recordPlacements s specs st.tiles bad)
        st.consumers).copyLog = _
    rw [hcb.2.1, hrpc]
  · intro c xx yy h
    unfold overlapsBlock
    rw [h]
    simp [JNum.lt]
  · intro c xx yy h
    unfold overlapsBlock
    rw [h]
    simp [JNum.lt]

theorem C8_blocks_column_major_witness :
    (lookupA c8r.2.tileSetID c8r.1.pendingRenders = some c8st ∧
     c8st.renderId = c8r.2.renderId ∧
     ¬((c8canon.1.length : Int) - (([] : List Nat).length : Int) = 0)) ∧
    ((renderContinuation c8r.1 c8r.2.tileSetID c8r.2.renderId c8canon.1 c8canon.2
        []).blockRenderLog =
      c8r.1.blockRenderLog ++ renderedBlocks c8st.consumers (blockGrid c8st.consumers) ∧
     (renderContinuation c8r.1 c8r.2.tileSetID c8r.2.renderId c8canon.1 c8canon.2
        []).copyLog =
      c8r.1.copyLog ++ blockCopies c8st.consumers (blockGrid c8st.consumers) ∧
     (∀ c xx yy, c.drawSpec.srcLeft.add (.fin c.drawSpec.width) = .fin xx →
        overlapsBlock c xx yy = false) ∧
     (∀ c xx yy, c.drawSpec.srcLeft = .fin (xx + OFFSCREEN_CANV_SIZE) →
        overlapsBlock c xx yy = false)) :=
  ⟨⟨by decide, by decide, by decide⟩,
   C8_blocks_column_major c8r.1 c8r.2.tileSetID c8r.2.renderId c8canon.1 c8canon.2 []
     c8st (by decide) (by decide) (by decide)⟩

end PbfBasicRender
